import Mathlib

/-!
# Verification of `openshift.py` (concurrent fan-out route collector)

Shallow embedding of `src/openshift.py`.  The program shells out to the
`oc` CLI and parses JSON; we model the external world at the natural
oracle boundaries:

* `ListResponse` — the outcome of `subprocess.check_output(['oc','projects','-q'])`
  as observed by `get_openshift_namespaces` (stdout string, or
  `CalledProcessError`, or `FileNotFoundError`);
* `FetchResponse` — the outcome of `subprocess.check_output(['oc','get','routes',...])`
  followed by `json.loads`, as observed by `get_routes_for_namespace`
  (a parsed JSON document, or `CalledProcessError`, or `JSONDecodeError`).

Python values parsed from JSON are modelled by the inductive `Json`;
Python dictionary/iteration/truthiness primitives used by the script are
modelled by `pyGetD`, `pySub`, `pyIterList`, `pyTruthy`.  An uncaught
Python exception is modelled as `Except.error msg` (the exact exception
message strings are abbreviated; no claim depends on their text).

Output sent to `sys.stdout` / `sys.stderr` is modelled as a list of
strings, one element per `print(...)` call (so an element may contain an
embedded or leading `\n` when the printed f-string does).  Stderr lines
produced inside worker threads are attributed to the moment the main
loop consumes the corresponding completion; the claims checked here only
concern which stream a line goes to, never cross-thread interleaving.

The nondeterministic completion order of `concurrent.futures.as_completed`
is modelled by an explicit parameter `order : List String`, a permutation
of the submitted namespace list.  The `ThreadPoolExecutor(max_workers=10)`
bound is modelled by the transition system `PoolStep` further below.
-/

/-- A parsed JSON document (the result of a successful `json.loads`).
Numbers are modelled as integers; no claim involves numeric values. -/
inductive Json where
  | null
  | bool (b : Bool)
  | num (n : Int)
  | str (s : String)
  | arr (xs : List Json)
  | obj (kvs : List (String × Json))

/-- First-match lookup in a JSON object (Python `dict` keys are unique,
so first-match agrees with `dict` lookup). -/
def lookupJ : List (String × Json) → String → Option Json
  | [], _ => none
  | (k, v) :: rest, key => if k = key then some v else lookupJ rest key

/-- Python truthiness `bool(x)` of a value parsed from JSON. -/
def pyTruthy : Json → Bool
  | .null => false
  | .bool b => b
  | .num n => if n = 0 then false else true
  | .str s => if s = "" then false else true
  | .arr xs => !xs.isEmpty
  | .obj kvs => !kvs.isEmpty

/-- Python `x.get(key, default)`: defined on dicts, raises
`AttributeError` on any other value. -/
def pyGetD : Json → String → Json → Except String Json
  | .obj kvs, key, dflt => .ok ((lookupJ kvs key).getD dflt)
  | _, _, _ => .error "AttributeError: object has no attribute get"

/-- Python `x[key]` with a string key: `KeyError` when a dict lacks the
key, `TypeError` on a non-dict value. -/
def pySub : Json → String → Except String Json
  | .obj kvs, key =>
      match lookupJ kvs key with
      | some v => .ok v
      | none => .error ("KeyError: '" ++ key ++ "'")
  | _, _ => .error "TypeError: value is not subscriptable"

/-- Python `for x in j`: lists yield their elements, dicts their keys,
strings their characters; other values raise `TypeError`. -/
def pyIterList : Json → Except String (List Json)
  | .arr xs => .ok xs
  | .obj kvs => .ok (kvs.map (fun kv => Json.str kv.1))
  | .str s => .ok (s.data.map (fun c => Json.str (String.singleton c)))
  | _ => .error "TypeError: value is not iterable"

/-- The normalized per-route record built at lines 33–40 of
`openshift.py` (the `route_info` dict).  Field values other than
`tls_enabled` are arbitrary JSON values, exactly as in Python where the
payload may carry any type. -/
structure RouteInfo where
  name : Json
  host : Json
  path : Json
  to_service : Json
  tls_enabled : Bool
  ingress_status : List Json

/-- The list comprehension at line 39, aborting at the first entry
that raises. -/
def ingressHosts : List Json → Except String (List Json)
  | [] => .ok []
  | ing :: rest => do
    let h ← pyGetD ing "host" (Json.str "N/A")
    let hs ← ingressHosts rest
    pure (h :: hs)

/-- Normalization of one raw routing object (the body of the `for item`
loop, lines 30–41).  Evaluation order follows the Python source: `spec`,
`status`, then the `route_info` dict literal entries in order.  Any
Python exception (`KeyError`, `AttributeError`, `TypeError`) aborts the
whole loop — none of these is caught by the `except` clauses. -/
def normalizeItem (item : Json) : Except String RouteInfo := do
  let spec ← pyGetD item "spec" (Json.obj [])
  let status ← pyGetD item "status" (Json.obj [])
  let meta ← pySub item "metadata"
  let name ← pySub meta "name"
  let host ← pyGetD spec "host" (Json.str "N/A")
  let path ← pyGetD spec "path" (Json.str "N/A")
  let toVal ← pyGetD spec "to" (Json.obj [])
  let toName ← pyGetD toVal "name" (Json.str "N/A")
  let tls ← pyGetD spec "tls" Json.null
  let ingVal ← pyGetD status "ingress" (Json.arr [])
  let ings ← pyIterList ingVal
  let hosts ← ingressHosts ings
  pure ⟨name, host, path, toName, pyTruthy tls, hosts⟩

/-- What the external world hands `get_routes_for_namespace` for one
namespace: the query/parse boundary (see module docstring). -/
inductive FetchResponse where
  | transportError (e : String)
  | parseError
  | payload (doc : Json)

/-- Result of one `get_routes_for_namespace` call: the value returned
(or the uncaught exception escaping it), plus the lines it printed to
`sys.stderr`. -/
structure FetchResult where
  ret : Except String (String × List RouteInfo)
  errLog : List String

/-- The `for item in ...` loop (lines 30–41), building `routes` in
order and aborting at the first raised exception. -/
def normalizeItems : List Json → Except String (List RouteInfo)
  | [] => .ok []
  | item :: rest => do
    let r ← normalizeItem item
    let rs ← normalizeItems rest
    pure (r :: rs)

/-- `get_routes_for_namespace` (lines 21–48).  The `try` block catches
exactly `subprocess.CalledProcessError` and `json.JSONDecodeError`,
converting each to a stderr line and the return value `(namespace, [])`.
Exceptions raised while normalizing a parsed payload are NOT caught and
escape as `ret = .error`. -/
def get_routes_for_namespace (ns : String) (resp : FetchResponse) : FetchResult :=
  match resp with
  | .transportError e =>
      ⟨.ok (ns, []), ["Error retrieving routes for namespace '" ++ ns ++ "': " ++ e]⟩
  | .parseError =>
      ⟨.ok (ns, []), ["Error parsing JSON for namespace '" ++ ns ++ "'."]⟩
  | .payload doc =>
      match (do
        let itemsVal ← pyGetD doc "items" (Json.arr [])
        let items ← pyIterList itemsVal
        normalizeItems items : Except String (List RouteInfo)) with
      | .ok routes => ⟨.ok (ns, routes), []⟩
      | .error e => ⟨.error e, []⟩

/-- What the external world hands `get_openshift_namespaces`. -/
inductive ListResponse where
  | ok (out : String)
  | calledProcessError (e : String)
  | fileNotFound

/-- Python `str.splitlines()` applied to an already-stripped string
(after `.strip()` no leading/trailing newline remains, where the two
functions agree on `\n`-separated text). -/
def pySplitlines (s : String) : List String :=
  if s = "" then [] else s.splitOn "\n"

/-- `get_openshift_namespaces` (lines 6–19): returns the namespace list
plus the stderr lines it printed.  Both failure modes collapse to `[]`.
Python `.strip()` is modelled by `String.trim`. -/
def get_openshift_namespaces : ListResponse → List String × List String
  | .ok out => (pySplitlines out.trim, [])
  | .calledProcessError e => ([], ["Error retrieving namespaces: " ++ e])
  | .fileNotFound =>
      ([], ["Error: 'oc' command not found. Ensure OpenShift CLI is installed and in PATH."])

/-! ## Python `dict` model (insertion-ordered association list, unique keys) -/

/-- Keys of a dict, in insertion order. -/
def dictKeys {α : Type} (d : List (String × α)) : List String :=
  d.map Prod.fst

/-- Python `k in d`. -/
def dictMem {α : Type} : List (String × α) → String → Bool
  | [], _ => false
  | kv :: rest, k => if kv.1 = k then true else dictMem rest k

/-- Python `d[k] = v`: update in place when the key is present (keys are
unique, so updating the first occurrence is the dict semantics), append
at the end when absent. -/
def dictInsert {α : Type} : List (String × α) → String → α → List (String × α)
  | [], k, v => [(k, v)]
  | kv :: rest, k, v => if kv.1 = k then (k, v) :: rest else kv :: dictInsert rest k v

/-- Python `d.get(k)` / `d[k]` value lookup. -/
def dictGet {α : Type} : List (String × α) → String → Option α
  | [], _ => none
  | (k, v) :: rest, key => if k = key then some v else dictGet rest key

/-! ## The fan-out collector loop of `main` (lines 56–74) -/

/-- Mutable state of `main`'s completion loop: the `all_routes` dict and
the output printed so far. -/
structure LoopState where
  all_routes : List (String × List RouteInfo)
  stdoutAcc : List String
  stderrAcc : List String

/-- Processing of one completed future in the `as_completed` loop
(lines 61–69): on a normal return, print the progress line to stdout and
record the routes only when the list is non-empty (`if routes:`); an
exception raised by the fetch is caught by `except Exception` and logged
to stderr. -/
def processCompletion (fresp : String → FetchResponse) (st : LoopState)
    (ns : String) : LoopState :=
  let f := get_routes_for_namespace ns (fresp ns)
  match f.ret with
  | .ok (_, routes) =>
      ⟨if routes.isEmpty then st.all_routes else dictInsert st.all_routes ns routes,
       st.stdoutAcc ++ ["Finished processing namespace: " ++ ns],
       st.stderrAcc ++ f.errLog⟩
  | .error exc =>
      ⟨st.all_routes, st.stdoutAcc,
       st.stderrAcc ++ f.errLog ++
         ["Namespace " ++ ns ++ " generated an exception: " ++ exc]⟩

/-- The whole `as_completed` loop, consuming completions in the
(nondeterministic) order `order`. -/
def collectLoop (fresp : String → FetchResponse) (order : List String) : LoopState :=
  order.foldl (processCompletion fresp) ⟨[], [], []⟩

/-- The back-fill loop (lines 72–74): every listed namespace absent from
`all_routes` is mapped to `[]`. -/
def fillReport (d : List (String × List RouteInfo)) (namespaces : List String) :
    List (String × List RouteInfo) :=
  namespaces.foldl (fun d ns => if dictMem d ns then d else dictInsert d ns []) d

/-- The `all_routes` dict as it stands at line 76, after the completion
loop and the back-fill loop. -/
def finalReport (namespaces : List String) (fresp : String → FetchResponse)
    (order : List String) : List (String × List RouteInfo) :=
  fillReport (collectLoop fresp order).all_routes namespaces

/-! ## The report renderer (lines 76–93) -/

mutual
/-- Python `repr` of a parsed-JSON value (string escaping and float
formatting are not modelled; no claim depends on them). -/
def pyRepr : Json → String
  | .null => "None"
  | .bool true => "True"
  | .bool false => "False"
  | .num n => toString n
  | .str s => "'" ++ s ++ "'"
  | .arr xs => "[" ++ pyReprList xs ++ "]"
  | .obj kvs => "\x7b" ++ pyReprObj kvs ++ "\x7d"

/-- `repr` of the comma-separated inside of a Python list. -/
def pyReprList : List Json → String
  | [] => ""
  | [x] => pyRepr x
  | x :: y :: rest => pyRepr x ++ ", " ++ pyReprList (y :: rest)

/-- `repr` of the comma-separated inside of a Python dict. -/
def pyReprObj : List (String × Json) → String
  | [] => ""
  | [(k, v)] => "'" ++ k ++ "': " ++ pyRepr v
  | (k, v) :: x :: rest => "'" ++ k ++ "': " ++ pyRepr v ++ ", " ++ pyReprObj (x :: rest)
end

/-- Python `str(x)` as used by the report f-strings. -/
def pyStrJ : Json → String
  | .str s => s
  | j => pyRepr j

/-- Python `', '.flatten(xs)`: `TypeError` unless every element is a str. -/
def strList : List Json → Option (List String)
  | [] => some []
  | j :: rest =>
    match j with
    | .str s => (strList rest).map (fun ss => s :: ss)
    | _ => none

/-- Python `', '.flatten(xs)`: `TypeError` unless every element is a str,
where `strList` extracts the underlying strings. -/
def joinHosts (xs : List Json) : Except String String :=
  match strList xs with
  | some ss => .ok (String.intercalate ", " ss)
  | none => .error "TypeError: sequence item: expected str instance"

/-- The six `print`s for one route (lines 85–91).  The pair's second
component is the uncaught `TypeError` raised while building the
`Ingress Hosts:` f-string, which aborts printing before that line. -/
def renderRoute (r : RouteInfo) : List String × Option String :=
  let head := ["  Route: " ++ pyStrJ r.name,
               "    Host: " ++ pyStrJ r.host,
               "    Path: " ++ pyStrJ r.path,
               "    To Service: " ++ pyStrJ r.to_service,
               "    TLS Enabled: " ++ (if r.tls_enabled then "True" else "False")]
  match joinHosts r.ingress_status with
  | .ok s => (head ++ ["    Ingress Hosts: " ++ s, "---"], none)
  | .error e => (head, some e)

/-- The `for route in routes` loop (lines 84–91); a raised `TypeError`
aborts the remaining iterations. -/
def renderRoutes : List RouteInfo → List String × Option String
  | [] => ([], none)
  | r :: rest =>
    match renderRoute r with
    | (lines, some e) => (lines, some e)
    | (lines, none) =>
        let (more, c) := renderRoutes rest
        (lines ++ more, c)

/-- The body of the outer render loop for one namespace (lines 82–93):
header print, then either the route lines or the explicit
`No routes found.` marker. -/
def renderNamespace (report : List (String × List RouteInfo)) (ns : String) :
    List String × Option String :=
  let routes := (dictGet report ns).getD []
  let header := "\nNamespace: " ++ ns
  if routes.isEmpty then ([header, "  No routes found."], none)
  else
    let (lines, c) := renderRoutes routes
    (header :: lines, c)

/-- `sorted(all_routes.keys())` (line 77).  Python's `sorted` on strings
is the lexicographic order by code point, which is `String`'s `≤`;
`insertionSort` is extensionally any stable sort. -/
def sorted_namespaces (report : List (String × List RouteInfo)) : List String :=
  List.insertionSort (· ≤ ·) (dictKeys report)

/-- The outer render loop over a given namespace list. -/
def renderList (report : List (String × List RouteInfo)) :
    List String → List String × Option String
  | [] => ([], none)
  | ns :: rest =>
    match renderNamespace report ns with
    | (lines, some e) => (lines, some e)
    | (lines, none) =>
        let (more, c) := renderList report rest
        (lines ++ more, c)

/-- The rendered report (lines 76–93): all namespaces in sorted order. -/
def renderReport (report : List (String × List RouteInfo)) :
    List String × Option String :=
  renderList report (sorted_namespaces report)

/-! ## `main` (lines 50–93) -/

/-- Observable outcome of one program run: the two output streams, an
uncaught exception (if the report printing crashed), and the namespaces
submitted to the executor. -/
structure RunOutput where
  stdout : List String
  stderr : List String
  crash : Option String
  dispatched : List String

/-- `main` from line 56 on, given the already-obtained namespace list:
submit one fetch per namespace, drain completions in `order`, back-fill,
sort, and print. -/
def mainRun (namespaces : List String) (fresp : String → FetchResponse)
    (order : List String) : RunOutput :=
  let st := collectLoop fresp order
  let report := fillReport st.all_routes namespaces
  let (lines, c) := renderReport report
  ⟨st.stdoutAcc ++ lines, st.stderrAcc, c, namespaces⟩

/-- The whole of `main` (lines 50–93) including the namespace-listing
step and the empty-list early return (lines 51–54). -/
def runMain (lresp : ListResponse) (fresp : String → FetchResponse)
    (order : List String) : RunOutput :=
  let nsAndErr := get_openshift_namespaces lresp
  if nsAndErr.1.isEmpty then
    ⟨[], nsAndErr.2 ++ ["No namespaces found or error occurred."], none, []⟩
  else
    let r := mainRun nsAndErr.1 fresp order
    ⟨r.stdout, nsAndErr.2 ++ r.stderr, r.crash, r.dispatched⟩

/-! ## The executor's concurrency bound (lines 57–60) -/

/-- `max_workers = 10` (line 57). -/
def max_workers : Nat := 10

/-- Scheduling state of the `ThreadPoolExecutor`: namespaces whose fetch
has not started, is running, or has finished. -/
structure PoolState where
  pending : List String
  inflight : List String
  finished : List String

/-- One scheduling step of `ThreadPoolExecutor(max_workers=max_workers)`
as relied on by lines 59–60: a queued task starts only while fewer than
`max_workers` tasks are running; a running task may finish at any time. -/
inductive PoolStep : PoolState → PoolState → Prop where
  | dispatch (ns : String) (p i c : List String) :
      ns ∈ p → i.length < max_workers →
      PoolStep ⟨p, i, c⟩ ⟨p.erase ns, ns :: i, c⟩
  | complete (ns : String) (p i c : List String) :
      ns ∈ i →
      PoolStep ⟨p, i, c⟩ ⟨p, i.erase ns, ns :: c⟩

/-- Initial scheduling state: every submitted namespace queued. -/
def initPool (namespaces : List String) : PoolState :=
  ⟨namespaces, [], []⟩

/-- States the executor can reach during a run over `namespaces`. -/
def PoolReachable (namespaces : List String) (s : PoolState) : Prop :=
  Relation.ReflTransGen PoolStep (initPool namespaces) s

/-! ## Concrete example inputs used by counterexamples and witnesses -/

/-- A syntactically valid payload whose single routing object has a
`metadata` block without the required `name` field. -/
def malformedDoc : Json :=
  Json.obj [("items", Json.arr [Json.obj [("metadata", Json.obj [])]])]

/-- A payload with an empty `items` list: a namespace that legitimately
has zero routes. -/
def emptyItemsDoc : Json :=
  Json.obj [("items", Json.arr [])]

/-- A routing object with `metadata.name` present but `host`, `path`,
`to` and `tls` all absent, and one empty status-ingress entry. -/
def demoItem4 : Json :=
  Json.obj [("metadata", Json.obj [("name", Json.str "web")]),
            ("spec", Json.obj []),
            ("status", Json.obj [("ingress", Json.arr [Json.obj []])])]

/-- A two-namespace report: `b` (inserted first) empty, `a` with one
route. -/
def demoReport6 : List (String × List RouteInfo) :=
  [("b", []),
   ("a", [⟨Json.str "web", Json.str "web.a.example", Json.str "/",
           Json.str "svc1", true, [Json.str "web.a.example"]⟩])]

/-! ## Dictionary lemmas -/

theorem dictGet_insert_self {α : Type} (d : List (String × α)) (k : String) (v : α) :
    dictGet (dictInsert d k v) k = some v := by
  induction d with
  | nil => simp [dictInsert, dictGet]
  | cons kv rest ih =>
    by_cases h : kv.1 = k
    · simp [dictInsert, dictGet, h]
    · simp [dictInsert, dictGet, h, ih]

theorem dictGet_insert_ne {α : Type} (d : List (String × α)) (k k' : String) (v : α)
    (h : k' ≠ k) : dictGet (dictInsert d k v) k' = dictGet d k' := by
  have hkk : ¬k = k' := fun hh => h hh.symm
  induction d with
  | nil => simp [dictInsert, dictGet, if_neg hkk]
  | cons kv rest ih =>
    by_cases hk : kv.1 = k
    · have hkv : ¬kv.1 = k' := by rw [hk]; exact hkk
      simp only [dictInsert, if_pos hk, dictGet, if_neg hkk, if_neg hkv]
    · by_cases hk' : kv.1 = k'
      · simp only [dictInsert, if_neg hk, dictGet, if_pos hk']
      · simp only [dictInsert, if_neg hk, dictGet, if_neg hk', ih]

theorem dictGet_mem {α : Type} (d : List (String × α)) (k : String) (v : α)
    (h : dictGet d k = some v) : (k, v) ∈ d := by
  induction d with
  | nil => simp [dictGet] at h
  | cons kv rest ih =>
    simp only [dictGet] at h
    by_cases hk : kv.1 = k
    · rw [if_pos hk] at h
      cases h
      exact hk ▸ (List.mem_cons_self kv rest)
    · rw [if_neg hk] at h
      exact List.mem_cons_of_mem _ (ih h)

theorem mem_dictKeys {α : Type} (d : List (String × α)) (k : String) :
    k ∈ dictKeys d ↔ ∃ v, dictGet d k = some v := by
  induction d with
  | nil => simp [dictKeys, dictGet]
  | cons kv rest ih =>
    by_cases hk : kv.1 = k
    · simp [dictKeys, dictGet, hk]
    · simp only [dictKeys, List.map_cons, List.mem_cons, dictGet, if_neg hk]
      rw [← dictKeys, or_iff_right (show ¬k = kv.1 from fun hh => hk hh.symm)]
      exact ih

theorem dictMem_iff {α : Type} (d : List (String × α)) (k : String) :
    dictMem d k = true ↔ k ∈ dictKeys d := by
  induction d with
  | nil => simp [dictMem, dictKeys]
  | cons kv rest ih =>
    by_cases hk : kv.1 = k
    · simp [dictMem, dictKeys, hk]
    · simp only [dictMem, if_neg hk, dictKeys, List.map_cons, List.mem_cons]
      rw [← dictKeys, or_iff_right (show ¬k = kv.1 from fun hh => hk hh.symm)]
      exact ih

theorem dictKeys_insert {α : Type} (d : List (String × α)) (k : String) (v : α) :
    dictKeys (dictInsert d k v) =
      if dictMem d k then dictKeys d else dictKeys d ++ [k] := by
  induction d with
  | nil => simp [dictInsert, dictMem, dictKeys]
  | cons kv rest ih =>
    by_cases hk : kv.1 = k
    · simp [dictInsert, dictMem, dictKeys, hk]
    · simp only [dictInsert, if_neg hk, dictMem, dictKeys, List.map_cons]
      rw [← dictKeys, ← dictKeys, ih]
      split <;> simp

theorem dictKeys_insert_nodup {α : Type} (d : List (String × α)) (k : String) (v : α)
    (h : (dictKeys d).Nodup) : (dictKeys (dictInsert d k v)).Nodup := by
  rw [dictKeys_insert]
  split
  · exact h
  · rename_i hmem
    have hk : k ∉ dictKeys d := fun hc => hmem ((dictMem_iff d k).mpr hc)
    simpa [List.nodup_append] using ⟨h, hk⟩

theorem dictMem_get {α : Type} (d : List (String × α)) (k : String)
    (h : dictMem d k = true) : ∃ v, dictGet d k = some v :=
  (mem_dictKeys d k).mp ((dictMem_iff d k).mp h)

theorem dictGet_not_mem {α : Type} (d : List (String × α)) (k : String)
    (h : dictMem d k = false) : dictGet d k = none := by
  induction d with
  | nil => simp [dictGet]
  | cons kv rest ih =>
    simp only [dictMem] at h
    by_cases hk : kv.1 = k
    · simp [hk] at h
    · rw [if_neg hk] at h
      simp [dictGet, hk, ih h]

/-! ## Collector-loop lemmas -/

/-- The route list a namespace's fetch effectively contributes: the
second component of the returned pair, or `[]` when the fetch raised. -/
def expectedRoutesOf (ns : String) (resp : FetchResponse) : List RouteInfo :=
  match (get_routes_for_namespace ns resp).ret with
  | .ok p => p.2
  | .error _ => []

/-- Whether one fetch failed (a caught transport/parse error, visible as
a stderr diagnostic, or an uncaught exception). -/
def fetchFailed (ns : String) (resp : FetchResponse) : Bool :=
  match (get_routes_for_namespace ns resp).ret with
  | .error _ => true
  | .ok _ => !(get_routes_for_namespace ns resp).errLog.isEmpty

theorem fetchFailed_expectedRoutesOf (ns : String) (resp : FetchResponse)
    (h : fetchFailed ns resp = true) : expectedRoutesOf ns resp = [] := by
  cases resp with
  | transportError e => simp [expectedRoutesOf, get_routes_for_namespace]
  | parseError => simp [expectedRoutesOf, get_routes_for_namespace]
  | payload doc =>
    unfold fetchFailed at h
    unfold expectedRoutesOf
    cases hr : (get_routes_for_namespace ns (.payload doc)).ret with
    | error e => simp
    | ok p =>
      rw [hr] at h
      exfalso
      have herr : (get_routes_for_namespace ns (.payload doc)).errLog = [] := by
        simp only [get_routes_for_namespace]
        split <;> rfl
      simp [herr] at h

theorem processCompletion_all_routes (fresp : String → FetchResponse)
    (st : LoopState) (ns : String) :
    (processCompletion fresp st ns).all_routes =
      if (expectedRoutesOf ns (fresp ns)).isEmpty then st.all_routes
      else dictInsert st.all_routes ns (expectedRoutesOf ns (fresp ns)) := by
  unfold processCompletion expectedRoutesOf
  cases h : (get_routes_for_namespace ns (fresp ns)).ret with
  | error e => simp [h]
  | ok p => cases p with | mk a routes => simp [h]

theorem foldl_proc_get (fresp : String → FetchResponse) (order : List String) :
    ∀ (st : LoopState) (k : String),
    dictGet ((order.foldl (processCompletion fresp) st).all_routes) k =
      if k ∈ order ∧ ¬(expectedRoutesOf k (fresp k)).isEmpty
      then some (expectedRoutesOf k (fresp k))
      else dictGet st.all_routes k := by
  induction order with
  | nil => intro st k; simp
  | cons ns rest ih =>
    intro st k
    rw [List.foldl_cons, ih]
    by_cases hrest : k ∈ rest ∧ ¬(expectedRoutesOf k (fresp k)).isEmpty
    · rw [if_pos hrest, if_pos ⟨List.mem_cons_of_mem _ hrest.1, hrest.2⟩]
    · rw [if_neg hrest, processCompletion_all_routes]
      by_cases hk : k = ns
      · subst hk
        by_cases he : (expectedRoutesOf k (fresp k)).isEmpty
        · rw [if_pos he,
            if_neg (fun hc : k ∈ k :: rest ∧ ¬(expectedRoutesOf k (fresp k)).isEmpty =>
              hc.2 he)]
        · rw [if_neg he, dictGet_insert_self,
            if_pos ⟨List.mem_cons_self _ _, he⟩]
      · have hget : dictGet
            (if (expectedRoutesOf ns (fresp ns)).isEmpty then st.all_routes
             else dictInsert st.all_routes ns (expectedRoutesOf ns (fresp ns))) k =
            dictGet st.all_routes k := by
          split
          · rfl
          · exact dictGet_insert_ne _ _ _ _ hk
        rw [hget,
          if_neg (fun hc : k ∈ ns :: rest ∧ ¬(expectedRoutesOf k (fresp k)).isEmpty =>
            hrest ⟨(List.mem_cons.mp hc.1).resolve_left hk, hc.2⟩)]

theorem collectLoop_get (fresp : String → FetchResponse) (order : List String)
    (k : String) :
    dictGet (collectLoop fresp order).all_routes k =
      if k ∈ order ∧ ¬(expectedRoutesOf k (fresp k)).isEmpty
      then some (expectedRoutesOf k (fresp k)) else none := by
  unfold collectLoop
  rw [foldl_proc_get]
  rfl

theorem fillReport_get (namespaces : List String) :
    ∀ (d : List (String × List RouteInfo)) (k : String),
    dictGet (fillReport d namespaces) k =
      match dictGet d k with
      | some v => some v
      | none => if k ∈ namespaces then some ([] : List RouteInfo) else none := by
  induction namespaces with
  | nil => intro d k; cases h : dictGet d k <;> simp [fillReport, h]
  | cons ns rest ih =>
    intro d k
    have hstep : fillReport d (ns :: rest) =
        fillReport (if dictMem d ns then d else dictInsert d ns []) rest := by
      unfold fillReport
      rw [List.foldl_cons]
    rw [hstep, ih]
    by_cases hk : k = ns
    · subst hk
      cases hmem : dictMem d k with
      | true =>
        rcases dictMem_get d k hmem with ⟨v, hv⟩
        simp [hv]
      | false =>
        rw [if_neg (by simp [hmem])]
        rw [dictGet_not_mem d k hmem, dictGet_insert_self]
        simp
    · have hget : dictGet (if dictMem d ns then d else dictInsert d ns []) k =
          dictGet d k := by
        split
        · rfl
        · exact dictGet_insert_ne _ _ _ _ hk
      rw [hget]
      cases h : dictGet d k with
      | some v => simp
      | none => simp [List.mem_cons, hk]

theorem finalReport_get (namespaces : List String) (fresp : String → FetchResponse)
    (order : List String) (hperm : order.Perm namespaces) (k : String) :
    dictGet (finalReport namespaces fresp order) k =
      if k ∈ namespaces then some (expectedRoutesOf k (fresp k)) else none := by
  unfold finalReport
  rw [fillReport_get, collectLoop_get]
  have hmem : k ∈ order ↔ k ∈ namespaces := hperm.mem_iff
  by_cases hns : k ∈ namespaces
  · by_cases he : (expectedRoutesOf k (fresp k)).isEmpty
    · rw [if_neg (fun hc => hc.2 he), if_pos hns]
      simp only [if_pos hns]
      rw [List.isEmpty_iff] at he
      rw [he]
    · rw [if_pos ⟨hmem.mpr hns, he⟩]
      simp [hns]
  · rw [if_neg (fun hc => hns (hmem.mp hc.1)), if_neg hns]
    simp [hns]

theorem foldl_proc_nodup (fresp : String → FetchResponse) (order : List String) :
    ∀ (st : LoopState), (dictKeys st.all_routes).Nodup →
    (dictKeys ((order.foldl (processCompletion fresp) st)).all_routes).Nodup := by
  induction order with
  | nil => intro st h; exact h
  | cons ns rest ih =>
    intro st h
    rw [List.foldl_cons]
    refine ih _ ?_
    rw [processCompletion_all_routes]
    split
    · exact h
    · exact dictKeys_insert_nodup _ _ _ h

theorem fillReport_nodup (namespaces : List String) :
    ∀ (d : List (String × List RouteInfo)), (dictKeys d).Nodup →
    (dictKeys (fillReport d namespaces)).Nodup := by
  induction namespaces with
  | nil => intro d h; exact h
  | cons ns rest ih =>
    intro d h
    have hstep : fillReport d (ns :: rest) =
        fillReport (if dictMem d ns then d else dictInsert d ns []) rest := by
      unfold fillReport
      rw [List.foldl_cons]
    rw [hstep]
    refine ih _ ?_
    split
    · exact h
    · exact dictKeys_insert_nodup _ _ _ h

theorem finalReport_nodup (namespaces : List String) (fresp : String → FetchResponse)
    (order : List String) :
    (dictKeys (finalReport namespaces fresp order)).Nodup :=
  fillReport_nodup namespaces _
    (foldl_proc_nodup fresp order ⟨[], [], []⟩ (by simp [dictKeys]))

/-! ## Which stream each line goes to -/

theorem processCompletion_stdout_mono (fresp : String → FetchResponse)
    (st : LoopState) (ns : String) (l : String) (h : l ∈ st.stdoutAcc) :
    l ∈ (processCompletion fresp st ns).stdoutAcc := by
  cases hr : (get_routes_for_namespace ns (fresp ns)).ret with
  | ok p => cases p; simp [processCompletion, hr, h]
  | error e => simp [processCompletion, hr, h]

theorem processCompletion_stderr_mono (fresp : String → FetchResponse)
    (st : LoopState) (ns : String) (l : String) (h : l ∈ st.stderrAcc) :
    l ∈ (processCompletion fresp st ns).stderrAcc := by
  cases hr : (get_routes_for_namespace ns (fresp ns)).ret with
  | ok p => cases p; simp [processCompletion, hr, h]
  | error e => simp [processCompletion, hr, h]

theorem foldl_proc_stdout_mono (fresp : String → FetchResponse) (order : List String) :
    ∀ (st : LoopState) (l : String), l ∈ st.stdoutAcc →
    l ∈ ((order.foldl (processCompletion fresp) st)).stdoutAcc := by
  induction order with
  | nil => intro st l h; exact h
  | cons ns rest ih =>
    intro st l h
    rw [List.foldl_cons]
    exact ih _ _ (processCompletion_stdout_mono fresp st ns l h)

theorem foldl_proc_stderr_mono (fresp : String → FetchResponse) (order : List String) :
    ∀ (st : LoopState) (l : String), l ∈ st.stderrAcc →
    l ∈ ((order.foldl (processCompletion fresp) st)).stderrAcc := by
  induction order with
  | nil => intro st l h; exact h
  | cons ns rest ih =>
    intro st l h
    rw [List.foldl_cons]
    exact ih _ _ (processCompletion_stderr_mono fresp st ns l h)

theorem progress_mem_stdout (fresp : String → FetchResponse) (order : List String) :
    ∀ (st : LoopState) (ns : String), ns ∈ order →
    (∃ p, (get_routes_for_namespace ns (fresp ns)).ret = .ok p) →
    ("Finished processing namespace: " ++ ns) ∈
      ((order.foldl (processCompletion fresp) st)).stdoutAcc := by
  induction order with
  | nil => intro st ns h; simp at h
  | cons ns' rest ih =>
    intro st ns hmem hok
    rw [List.foldl_cons]
    by_cases h : ns = ns'
    · subst h
      refine foldl_proc_stdout_mono fresp rest _ _ ?_
      obtain ⟨p, hp⟩ := hok
      cases p
      simp [processCompletion, hp]
    · exact ih _ ns ((List.mem_cons.mp hmem).resolve_left h) hok

theorem errlog_mem_stderr (fresp : String → FetchResponse) (order : List String) :
    ∀ (st : LoopState) (ns l : String), ns ∈ order →
    l ∈ (get_routes_for_namespace ns (fresp ns)).errLog →
    l ∈ ((order.foldl (processCompletion fresp) st)).stderrAcc := by
  induction order with
  | nil => intro st ns l h; simp at h
  | cons ns' rest ih =>
    intro st ns l hmem hl
    rw [List.foldl_cons]
    by_cases h : ns = ns'
    · subst h
      refine foldl_proc_stderr_mono fresp rest _ _ ?_
      cases hr : (get_routes_for_namespace ns (fresp ns)).ret with
      | ok p => cases p; simp [processCompletion, hr, hl]
      | error e => simp [processCompletion, hr, hl]
    · exact ih _ ns l ((List.mem_cons.mp hmem).resolve_left h) hl

theorem mainRun_stdout (namespaces : List String) (fresp : String → FetchResponse)
    (order : List String) :
    (mainRun namespaces fresp order).stdout =
      (collectLoop fresp order).stdoutAcc ++
        (renderReport (finalReport namespaces fresp order)).1 := rfl

theorem mainRun_stderr (namespaces : List String) (fresp : String → FetchResponse)
    (order : List String) :
    (mainRun namespaces fresp order).stderr = (collectLoop fresp order).stderrAcc := rfl

/-! ## Renderer congruence -/

theorem renderNamespace_congr (r₁ r₂ : List (String × List RouteInfo)) (ns : String)
    (h : dictGet r₁ ns = dictGet r₂ ns) :
    renderNamespace r₁ ns = renderNamespace r₂ ns := by
  unfold renderNamespace
  rw [h]

theorem renderList_congr (r₁ r₂ : List (String × List RouteInfo))
    (h : ∀ ns, dictGet r₁ ns = dictGet r₂ ns) :
    ∀ l : List String, renderList r₁ l = renderList r₂ l := by
  intro l
  induction l with
  | nil => rfl
  | cons ns rest ih =>
    unfold renderList
    rw [renderNamespace_congr r₁ r₂ ns (h ns), ih]

theorem dictKeys_perm_of_get_eq (r₁ r₂ : List (String × List RouteInfo))
    (h₁ : (dictKeys r₁).Nodup) (h₂ : (dictKeys r₂).Nodup)
    (h : ∀ ns, dictGet r₁ ns = dictGet r₂ ns) :
    (dictKeys r₁).Perm (dictKeys r₂) :=
  (List.perm_ext_iff_of_nodup h₁ h₂).mpr
    (fun a => by rw [mem_dictKeys, mem_dictKeys, h a])

theorem sorted_namespaces_eq (r₁ r₂ : List (String × List RouteInfo))
    (h₁ : (dictKeys r₁).Nodup) (h₂ : (dictKeys r₂).Nodup)
    (h : ∀ ns, dictGet r₁ ns = dictGet r₂ ns) :
    sorted_namespaces r₁ = sorted_namespaces r₂ := by
  have hperm : (sorted_namespaces r₁).Perm (sorted_namespaces r₂) :=
    ((List.perm_insertionSort _ _).trans
      (dictKeys_perm_of_get_eq r₁ r₂ h₁ h₂ h)).trans
      (List.perm_insertionSort _ _).symm
  exact List.eq_of_perm_of_sorted hperm
    (List.sorted_insertionSort _ _) (List.sorted_insertionSort _ _)

theorem renderReport_congr (r₁ r₂ : List (String × List RouteInfo))
    (h₁ : (dictKeys r₁).Nodup) (h₂ : (dictKeys r₂).Nodup)
    (h : ∀ ns, dictGet r₁ ns = dictGet r₂ ns) :
    renderReport r₁ = renderReport r₂ := by
  unfold renderReport
  rw [sorted_namespaces_eq r₁ r₂ h₁ h₂ h, renderList_congr r₁ r₂ h]

/-! ## Crash-free rendering (reports whose ingress hosts are strings,
as the data model specifies) -/

/-- Whether a JSON value is a string (a Python `str`). -/
def strOnly : Json → Bool
  | .str _ => true
  | _ => false

/-- A record whose `', '.flatten` succeeds: all ingress hosts are strings. -/
def renderableRecord (r : RouteInfo) : Bool :=
  r.ingress_status.all strOnly

/-- A report every record of which is renderable. -/
def renderableReport (report : List (String × List RouteInfo)) : Bool :=
  report.all (fun kv => kv.2.all renderableRecord)

theorem strList_ok (xs : List Json) (h : xs.all strOnly = true) :
    ∃ ss, strList xs = some ss := by
  induction xs with
  | nil => exact ⟨[], rfl⟩
  | cons x rest ih =>
    simp only [List.all_cons, Bool.and_eq_true] at h
    obtain ⟨ss, hss⟩ := ih h.2
    cases x with
    | str s => exact ⟨s :: ss, by simp [strList, hss]⟩
    | null => simp [strOnly] at h
    | bool b => simp [strOnly] at h
    | num n => simp [strOnly] at h
    | arr a => simp [strOnly] at h
    | obj o => simp [strOnly] at h

theorem renderRoute_ok (r : RouteInfo) (h : renderableRecord r = true) :
    (renderRoute r).2 = none := by
  obtain ⟨ss, hss⟩ := strList_ok r.ingress_status h
  simp [renderRoute, joinHosts, hss]

theorem renderRoutes_ok (routes : List RouteInfo)
    (h : routes.all renderableRecord = true) :
    renderRoutes routes =
      ((routes.map (fun r => (renderRoute r).1)).flatten, none) := by
  induction routes with
  | nil => simp [renderRoutes]
  | cons r rest ih =>
    simp only [List.all_cons, Bool.and_eq_true] at h
    have h2 := renderRoute_ok r h.1
    cases hrr : renderRoute r with
    | mk lines c =>
      rw [hrr] at h2
      simp only at h2
      subst h2
      simp [renderRoutes, hrr, ih h.2]

theorem renderNamespace_ok (report : List (String × List RouteInfo))
    (h : renderableReport report = true) (ns : String) :
    (renderNamespace report ns).2 = none := by
  unfold renderNamespace
  cases hget : dictGet report ns with
  | none => simp
  | some routes =>
    cases routes with
    | nil => simp
    | cons r rs =>
      have hall : (r :: rs).all renderableRecord = true := by
        unfold renderableReport at h
        rw [List.all_eq_true] at h
        exact h (ns, r :: rs) (dictGet_mem report ns (r :: rs) hget)
      simp [renderRoutes_ok _ hall]

theorem renderNamespace_lines (report : List (String × List RouteInfo))
    (h : renderableReport report = true) (ns : String) :
    (renderNamespace report ns).1 =
      match dictGet report ns with
      | some (r :: rs) =>
          ("\nNamespace: " ++ ns) ::
            (((r :: rs).map (fun r => (renderRoute r).1)).flatten)
      | _ => ["\nNamespace: " ++ ns, "  No routes found."] := by
  unfold renderNamespace
  cases hget : dictGet report ns with
  | none => simp
  | some routes =>
    cases routes with
    | nil => simp
    | cons r rs =>
      have hall : (r :: rs).all renderableRecord = true := by
        unfold renderableReport at h
        rw [List.all_eq_true] at h
        exact h (ns, r :: rs) (dictGet_mem report ns (r :: rs) hget)
      simp [renderRoutes_ok _ hall]

theorem renderList_ok (report : List (String × List RouteInfo)) :
    ∀ l : List String, (∀ ns ∈ l, (renderNamespace report ns).2 = none) →
    renderList report l =
      ((l.map (fun ns => (renderNamespace report ns).1)).flatten, none) := by
  intro l
  induction l with
  | nil => intro _; simp [renderList]
  | cons ns rest ih =>
    intro h
    have h1 := h ns (List.mem_cons_self _ _)
    cases hrn : renderNamespace report ns with
    | mk lines c =>
      rw [hrn] at h1
      simp only at h1
      subst h1
      simp [renderList, hrn, ih (fun x hx => h x (List.mem_cons_of_mem _ hx))]

/-! ## Normalization helpers -/

/-- The ingress host extracted from one status entry, as the list
comprehension at line 39 computes it for a dict entry. -/
def ingressHostOf : Json → Json
  | .obj kvs => (lookupJ kvs "host").getD (Json.str "N/A")
  | j => j

theorem ingressHosts_map (ings : List Json)
    (h : ∀ ing ∈ ings, ∃ kvs, ing = Json.obj kvs) :
    ingressHosts ings = .ok (ings.map ingressHostOf) := by
  induction ings with
  | nil => rfl
  | cons ing rest ih =>
    obtain ⟨kvs, rfl⟩ := h ing (List.mem_cons_self _ _)
    have ihr := ih (fun i hi => h i (List.mem_cons_of_mem _ hi))
    simp [ingressHosts, pyGetD, ingressHostOf, ihr]
    rfl

/-! ## The concurrency bound -/

theorem poolStep_inflight_le (s s' : PoolState) (hstep : PoolStep s s')
    (hs : s.inflight.length ≤ max_workers) :
    s'.inflight.length ≤ max_workers := by
  cases hstep with
  | dispatch ns p i c hp hi =>
    simp only [List.length_cons]
    omega
  | complete ns p i c hi =>
    simp only at hs ⊢
    rw [List.length_erase_of_mem hi]
    omega

/-! ## The claims -/

/-- C1: For every non-empty sequence of namespace identifiers returned
by the namespace lister, the key set of the final report produced by
`main` equals that set of namespaces exactly (no additions, no
omissions), and every namespace whose fetch failed is mapped to an empty
route sequence rather than being dropped. -/
theorem C1_report_keys_complete (namespaces : List String)
    (fresp : String → FetchResponse) (order : List String)
    (hne : namespaces ≠ []) (hperm : order.Perm namespaces) :
    (∀ ns, ns ∈ dictKeys (finalReport namespaces fresp order) ↔ ns ∈ namespaces) ∧
    (∀ ns, ns ∈ namespaces → fetchFailed ns (fresp ns) = true →
      dictGet (finalReport namespaces fresp order) ns = some []) := by
  constructor
  · intro ns
    rw [mem_dictKeys, finalReport_get namespaces fresp order hperm ns]
    by_cases h : ns ∈ namespaces <;> simp [h]
  · intro ns hns hfail
    rw [finalReport_get namespaces fresp order hperm ns, if_pos hns,
      fetchFailed_expectedRoutesOf ns (fresp ns) hfail]

/-- Witness for C1 at a concrete one-namespace run whose only fetch
fails with a transport error. -/
theorem C1_report_keys_complete_witness :
    dictGet (finalReport ["a"] (fun _ => FetchResponse.transportError "x") ["a"]) "a" =
      some [] :=
  (C1_report_keys_complete ["a"] (fun _ => FetchResponse.transportError "x") ["a"]
    (by decide) (List.Perm.refl _)).2 "a" (by decide) rfl

/-- C2 counterexample: a payload whose routing object's `metadata` lacks
`name` makes `get_routes_for_namespace` raise an uncaught `KeyError`
instead of converting the failure locally. -/
theorem C2_uncaught_keyerror_counterexample :
    (get_routes_for_namespace "demo" (FetchResponse.payload malformedDoc)).ret =
      Except.error "KeyError: 'name'" := rfl

/-- C2 (amended): `get_routes_for_namespace` catches control-plane /
transport errors and JSON-parse errors locally, converting each into the
per-namespace result `(ns, [])` plus a stderr diagnostic; but a
well-formed-JSON payload whose item lacks `metadata.name` raises an
exception that escapes the function (handled only at the collector
boundary). -/
theorem C2_fetch_catches_transport_and_parse (ns e : String) :
    (get_routes_for_namespace ns (FetchResponse.transportError e)).ret =
      Except.ok (ns, []) ∧
    (get_routes_for_namespace ns FetchResponse.parseError).ret =
      Except.ok (ns, []) ∧
    (get_routes_for_namespace ns (FetchResponse.transportError e)).errLog ≠ [] ∧
    (get_routes_for_namespace ns FetchResponse.parseError).errLog ≠ [] :=
  ⟨rfl, rfl, by simp [get_routes_for_namespace], by simp [get_routes_for_namespace]⟩

/-- C3 counterexample: the value returned for a failed fetch is
identical to the value returned for a namespace that legitimately has
zero routes — there is no `Success`/`Failure` tag in the result. -/
theorem C3_untagged_result_counterexample :
    (get_routes_for_namespace "demo2" (FetchResponse.transportError "boom")).ret =
      (get_routes_for_namespace "demo2" (FetchResponse.payload emptyItemsDoc)).ret := rfl

/-- C3 (amended): the fetcher returns an untagged `(namespace, routes)`
pair; a failed fetch returns `(ns, [])`, indistinguishable in the
returned value from a legitimately empty namespace — the distinction
survives only in the stderr diagnostic side effect. -/
theorem C3_distinction_only_in_stderr (ns e : String) :
    (get_routes_for_namespace ns (FetchResponse.transportError e)).ret =
      (get_routes_for_namespace ns (FetchResponse.payload emptyItemsDoc)).ret ∧
    (get_routes_for_namespace ns (FetchResponse.transportError e)).errLog ≠ [] ∧
    (get_routes_for_namespace ns (FetchResponse.payload emptyItemsDoc)).errLog = [] :=
  ⟨rfl, by simp [get_routes_for_namespace], rfl⟩

/-- C4: for every raw routing object normalized by
`get_routes_for_namespace`: a missing `host`, `path`, or
backing-service name yields the literal string "N/A" for that field;
`tls_enabled` is true iff the object's TLS block is present and
non-empty (false for an absent or empty block); and the ingress-host
sequence is taken from the object's status section in source order, with
each entry missing a `host` defaulting to "N/A". -/
theorem C4_normalization_defaults (mkvs skvs stkvs : List (String × Json))
    (nameV : Json) (ings : List Json)
    (hname : lookupJ mkvs "name" = some nameV)
    (hto : lookupJ skvs "to" = none ∨ ∃ tkvs, lookupJ skvs "to" = some (Json.obj tkvs))
    (hing : lookupJ stkvs "ingress" = some (Json.arr ings))
    (hobj : ∀ ing ∈ ings, ∃ kvs, ing = Json.obj kvs) :
    ∃ r, normalizeItem (Json.obj [("metadata", Json.obj mkvs),
        ("spec", Json.obj skvs), ("status", Json.obj stkvs)]) = Except.ok r ∧
      r.name = nameV ∧
      (lookupJ skvs "host" = none → r.host = Json.str "N/A") ∧
      (lookupJ skvs "path" = none → r.path = Json.str "N/A") ∧
      ((lookupJ skvs "to" = none ∨
          ∃ tkvs, lookupJ skvs "to" = some (Json.obj tkvs) ∧
            lookupJ tkvs "name" = none) →
        r.to_service = Json.str "N/A") ∧
      ((lookupJ skvs "tls" = none ∨ lookupJ skvs "tls" = some (Json.obj [])) →
        r.tls_enabled = false) ∧
      (∀ tkvs, lookupJ skvs "tls" = some (Json.obj tkvs) → tkvs ≠ [] →
        r.tls_enabled = true) ∧
      r.ingress_status = ings.map ingressHostOf := by
  rcases hto with hto | ⟨tkvs, hto⟩
  · refine ⟨⟨nameV, (lookupJ skvs "host").getD (Json.str "N/A"),
      (lookupJ skvs "path").getD (Json.str "N/A"), Json.str "N/A",
      pyTruthy ((lookupJ skvs "tls").getD Json.null), ings.map ingressHostOf⟩,
      ?_, rfl, ?_, ?_, ?_, ?_, ?_, rfl⟩
    · simp [normalizeItem, pyGetD, pySub, lookupJ, hname, hto, hing,
        pyIterList, ingressHosts_map ings hobj, Bind.bind, Except.bind,
        Functor.map, Except.map]
      rfl
    · intro h; simp [h]
    · intro h; simp [h]
    · intro _; rfl
    · rintro (h | h) <;> simp [h, pyTruthy]
    · intro tkvs h hne
      simp only [h, Option.getD_some, pyTruthy]
      cases tkvs with
      | nil => exact absurd rfl hne
      | cons x xs => simp
  · refine ⟨⟨nameV, (lookupJ skvs "host").getD (Json.str "N/A"),
      (lookupJ skvs "path").getD (Json.str "N/A"),
      (lookupJ tkvs "name").getD (Json.str "N/A"),
      pyTruthy ((lookupJ skvs "tls").getD Json.null), ings.map ingressHostOf⟩,
      ?_, rfl, ?_, ?_, ?_, ?_, ?_, rfl⟩
    · simp [normalizeItem, pyGetD, pySub, lookupJ, hname, hto, hing,
        pyIterList, ingressHosts_map ings hobj, Bind.bind, Except.bind,
        Functor.map, Except.map]
      rfl
    · intro h; simp [h]
    · intro h; simp [h]
    · rintro (h | ⟨tkvs', h, hn⟩)
      · rw [h] at hto; exact absurd hto (by simp)
      · rw [h] at hto
        have : Json.obj tkvs' = Json.obj tkvs := by
          injection hto with hh
        cases this
        simp [hn]
    · rintro (h | h) <;> simp [h, pyTruthy]
    · intro tkvs' h hne
      simp only [h, Option.getD_some, pyTruthy]
      cases tkvs' with
      | nil => exact absurd rfl hne
      | cons x xs => simp

/-- Witness for C4 at a concrete routing object with `metadata.name`
present and `host`/`path`/`to`/`tls` absent, and one empty
status-ingress entry. -/
theorem C4_normalization_defaults_witness :
    ∃ r, normalizeItem demoItem4 = Except.ok r ∧ r.host = Json.str "N/A" ∧
      r.path = Json.str "N/A" ∧ r.to_service = Json.str "N/A" ∧
      r.tls_enabled = false ∧ r.ingress_status = [Json.str "N/A"] := by
  obtain ⟨r, hr, _, hhost, hpath, hto, htls0, _, hingr⟩ :=
    C4_normalization_defaults [("name", Json.str "web")] []
      [("ingress", Json.arr [Json.obj []])] (Json.str "web") [Json.obj []]
      rfl (Or.inl rfl) rfl
      (fun ing hi => by
        simp only [List.mem_singleton] at hi
        exact ⟨[], hi⟩)
  exact ⟨r, hr, hhost rfl, hpath rfl, hto (Or.inl rfl), htls0 (Or.inl rfl),
    by rw [hingr]; rfl⟩

/-- C5: for every completed report mapping and every two orders in which
fetch completions may arrive, the rendered report output is identical:
the rendered output is a pure function of the namespace-to-routes
mapping, with namespaces emitted in lexicographic order. -/
theorem C5_render_completion_order_independent (namespaces : List String)
    (fresp : String → FetchResponse) (o1 o2 : List String)
    (h1 : o1.Perm namespaces) (h2 : o2.Perm namespaces) :
    renderReport (finalReport namespaces fresp o1) =
      renderReport (finalReport namespaces fresp o2) ∧
    (sorted_namespaces (finalReport namespaces fresp o1)).Sorted (· ≤ ·) := by
  constructor
  · apply renderReport_congr
    · exact finalReport_nodup namespaces fresp o1
    · exact finalReport_nodup namespaces fresp o2
    · intro ns
      rw [finalReport_get namespaces fresp o1 h1 ns,
        finalReport_get namespaces fresp o2 h2 ns]
  · exact List.sorted_insertionSort _ _

/-- Witness for C5 at a concrete two-namespace run with the two
completion orders swapped. -/
theorem C5_render_completion_order_independent_witness :
    renderReport (finalReport ["a", "b"] (fun _ => FetchResponse.parseError) ["a", "b"]) =
      renderReport (finalReport ["a", "b"] (fun _ => FetchResponse.parseError) ["b", "a"]) :=
  (C5_render_completion_order_independent ["a", "b"] (fun _ => FetchResponse.parseError)
    ["a", "b"] ["b", "a"] (by decide) (by decide)).1

/-- C6: for every report mapping (with string ingress hosts, as the data
model specifies), the renderer emits namespaces sorted lexicographically
by identifier; every namespace with an empty route list is printed with
the explicit "No routes found." marker rather than skipped; and within
each namespace the routes are printed in their original order. -/
theorem C6_renderer_sorted_and_markers (report : List (String × List RouteInfo))
    (h : renderableReport report = true) :
    (renderReport report).2 = none ∧
    (renderReport report).1 =
      ((sorted_namespaces report).map (fun ns =>
        match dictGet report ns with
        | some (r :: rs) =>
            ("\nNamespace: " ++ ns) ::
              (((r :: rs).map (fun r => (renderRoute r).1)).flatten)
        | _ => ["\nNamespace: " ++ ns, "  No routes found."])).flatten ∧
    (sorted_namespaces report).Sorted (· ≤ ·) ∧
    (∀ ns, ns ∈ sorted_namespaces report ↔ ns ∈ dictKeys report) := by
  have hok : ∀ ns ∈ sorted_namespaces report, (renderNamespace report ns).2 = none :=
    fun ns _ => renderNamespace_ok report h ns
  have hrl := renderList_ok report (sorted_namespaces report) hok
  refine ⟨?_, ?_, List.sorted_insertionSort _ _,
    fun ns => (List.perm_insertionSort _ _).mem_iff⟩
  · rw [renderReport, hrl]
  · rw [renderReport, hrl]
    exact congrArg List.flatten
      (List.map_congr_left (fun ns _ => renderNamespace_lines report h ns))

/-- Witness for C6 at a concrete two-namespace report. -/
theorem C6_renderer_sorted_and_markers_witness :
    (renderReport demoReport6).2 = none :=
  (C6_renderer_sorted_and_markers demoReport6 (by decide)).1

/-- C7: at every point during a run, for any namespace set of size at
least the concurrency limit (`max_workers = 10`), no more than
`max_workers` fetches are simultaneously in flight. -/
theorem C7_concurrency_bound (namespaces : List String) (s : PoolState)
    (hN : max_workers ≤ namespaces.length) (hreach : PoolReachable namespaces s) :
    s.inflight.length ≤ max_workers := by
  unfold PoolReachable at hreach
  induction hreach with
  | refl => simp [initPool]
  | tail _ step ih => exact poolStep_inflight_le _ _ step ih

/-- Witness for C7: the initial state of a ten-namespace run. -/
theorem C7_concurrency_bound_witness :
    max_workers ≤ (List.replicate 10 "ns").length ∧
    (initPool (List.replicate 10 "ns")).inflight.length ≤ max_workers :=
  ⟨by decide,
    C7_concurrency_bound (List.replicate 10 "ns") _ (by decide)
      Relation.ReflTransGen.refl⟩

/-- C8 counterexample: the per-fetch progress notification is printed on
stdout, the same stream that carries the rendered report. -/
theorem C8_progress_on_stdout_counterexample :
    "Finished processing namespace: alpha" ∈
      (mainRun ["alpha"] (fun _ => FetchResponse.payload emptyItemsDoc)
        ["alpha"]).stdout := by
  have h : (mainRun ["alpha"] (fun _ => FetchResponse.payload emptyItemsDoc)
      ["alpha"]).stdout =
      ["Finished processing namespace: alpha", "\nNamespace: alpha",
       "  No routes found."] := rfl
  rw [h]
  exact List.mem_cons_self _ _

/-- C8 (amended): error diagnostic lines are written to stderr, separate
from the report stream; the per-fetch progress notification
`Finished processing namespace: …`, however, is written to stdout (the
report stream). -/
theorem C8_streams (namespaces : List String) (fresp : String → FetchResponse)
    (order : List String) :
    (∀ ns e, ns ∈ order → fresp ns = FetchResponse.transportError e →
      ("Error retrieving routes for namespace '" ++ ns ++ "': " ++ e) ∈
        (mainRun namespaces fresp order).stderr) ∧
    (∀ ns, ns ∈ order →
      (∃ p, (get_routes_for_namespace ns (fresp ns)).ret = Except.ok p) →
      ("Finished processing namespace: " ++ ns) ∈
        (mainRun namespaces fresp order).stdout) := by
  constructor
  · intro ns e hmem hresp
    rw [mainRun_stderr]
    refine errlog_mem_stderr fresp order _ ns _ hmem ?_
    rw [hresp]
    simp [get_routes_for_namespace]
  · intro ns hmem hok
    rw [mainRun_stdout]
    exact List.mem_append_left _ (progress_mem_stdout fresp order _ ns hmem hok)

/-- Witness for C8 (amended) at a concrete failing run. -/
theorem C8_streams_witness :
    ("Error retrieving routes for namespace 'b': boom") ∈
      (mainRun ["b"] (fun _ => FetchResponse.transportError "boom") ["b"]).stderr :=
  (C8_streams ["b"] (fun _ => FetchResponse.transportError "boom") ["b"]).1
    "b" "boom" (by decide) rfl

/-- C9: if the namespace lister returns an empty sequence (including the
case where listing failed and was collapsed to an empty result), `main`
dispatches zero route fetches and terminates without producing any
report body. -/
theorem C9_empty_namespaces (lresp : ListResponse) (fresp : String → FetchResponse)
    (order : List String) (h : (get_openshift_namespaces lresp).1 = []) :
    (runMain lresp fresp order).dispatched = [] ∧
    (runMain lresp fresp order).stdout = [] := by
  simp [runMain, h]

/-- Witness for C9 at the `FileNotFoundError` listing failure. -/
theorem C9_empty_namespaces_witness :
    (runMain ListResponse.fileNotFound (fun _ => FetchResponse.parseError) []).dispatched
        = [] ∧
    (runMain ListResponse.fileNotFound (fun _ => FetchResponse.parseError) []).stdout
        = [] :=
  C9_empty_namespaces ListResponse.fileNotFound (fun _ => FetchResponse.parseError) [] rfl

/-- C10: for every namespace, a valid-JSON document lacking a top-level
`items` key (or with an empty `items` list) yields the successful
outcome `(ns, [])` with no stderr diagnostic — not a parse failure. -/
theorem C10_missing_items_is_success (ns : String) (kvs : List (String × Json))
    (h : lookupJ kvs "items" = none ∨ lookupJ kvs "items" = some (Json.arr [])) :
    get_routes_for_namespace ns (FetchResponse.payload (Json.obj kvs)) =
      ⟨Except.ok (ns, []), []⟩ := by
  rcases h with h | h <;>
    simp [get_routes_for_namespace, pyGetD, h, pyIterList, normalizeItems,
      Bind.bind, Except.bind]

/-- Witness for C10 at the document `{}`. -/
theorem C10_missing_items_is_success_witness :
    get_routes_for_namespace "ns10" (FetchResponse.payload (Json.obj [])) =
      ⟨Except.ok ("ns10", []), []⟩ :=
  C10_missing_items_is_success "ns10" [] (Or.inl rfl)
